import Mathlib

/-!
Verification development for the tabular-metadata pipeline
(`src/metadata_from_tabular.py`): a shallow embedding of the path-resolution
and batch metadata-application core, together with theorems about it.

Modelling conventions:
* A pandas DataFrame is a `Table`: an ordered list of column labels plus a
  list of rows; a row is an ordered association list from column label to
  cell value (cell values are modelled as strings, the transport type the
  metadata store uses; `str` coercion is then the identity).
* The iRODS session is a `Session`: the catalog rows `(Collection.name,
  DataObject.name)` visible to the general query, plus the data objects
  reachable by `session.data_objects.get`, keyed by full path and carrying
  their current metadata.  Whether `apply_atomic_operations` raises for a
  given call is an oracle `String → AvuDict → Bool` passed explicitly.
* Python exceptions that escape a function (`KeyError` from a missing
  column, `UnboundLocalError` from the report's leaked loop variable) are
  modelled with `Except String`; exceptions swallowed inside
  `apply_metadata_to_data_object` never reach the `Except` layer, matching
  the source's `try/except` returning a boolean.
* `pathlib` joining (`str(Path(w) / Path(x))`) is modelled by `pathJoinStr`,
  implementing PurePosixPath parsing (anchor plus parts, dropping empty and
  dot components, the exactly-two-leading-slashes anchor rule) and
  stringification.
* The iRODS `like` operator is SQL LIKE with wildcards percent and
  underscore (`likeMatch`); the `=` operator is literal string equality.
-/

set_option maxRecDepth 8000

namespace MetadataFromTabular

/-- Attribute dictionary: ordered name/value pairs, as produced from a row. -/
abbrev AvuDict := List (String × String)

/-- The uniform name of the resolved-identifier column (constant `DATAOBJECT`). -/
def DATAOBJECT : String := "dataobject"

/-- A table row: ordered association of column label to cell value. -/
abbrev Row := List (String × String)

/-- A pandas DataFrame: ordered column labels plus rows. -/
structure Table where
  columns : List String
  rows : List Row
deriving DecidableEq

/-- The remote-store state: general-query catalog rows `(collection, object name)`
and the data objects addressable by full path with their metadata. -/
structure Session where
  catalog : List (String × String)
  objects : List (String × AvuDict)
deriving DecidableEq

deriving instance DecidableEq for Except

/-- Value of a row at a column label (first occurrence), like `row[label]`. -/
def lookupVal (r : Row) (k : String) : Option String :=
  (r.find? (fun kv => kv.1 == k)).map (fun kv => kv.2)

/-- Remove a label from a row, like `Series.drop(label)` or a dict
comprehension excluding the label. -/
def dropKey (r : Row) (k : String) : Row :=
  r.filter (fun kv => kv.1 != k)

/-- Set a label's value in a row: overwrite in place when the label exists,
append at the end otherwise (pandas `Series.__setitem__`). -/
def setVal (r : Row) (k v : String) : Row :=
  if r.any (fun kv => kv.1 == k) then
    r.map (fun kv => if kv.1 == k then (k, v) else kv)
  else r ++ [(k, v)]

/-- All suffixes of a character list, longest first. -/
def sufs : List Char → List (List Char)
  | [] => [[]]
  | c :: s => (c :: s) :: sufs s

/-- SQL LIKE matching: percent matches any sequence, underscore any single
character, anything else itself. -/
def likeMatch : List Char → List Char → Bool
  | [], s => s.isEmpty
  | '%' :: ps, s => (sufs s).any (fun t => likeMatch ps t)
  | '_' :: _, [] => false
  | '_' :: ps, _ :: s => likeMatch ps s
  | _ :: _, [] => false
  | p :: ps, c :: s => (p == c) && likeMatch ps s

/-- Embedding of `search_objects_with_identifier` (lines 88-116): a general
query filtering catalog rows by `Collection.name like workingdirectory + "%"`
and `DataObject.name <op> identifier + "%"`, where the operator is literal
equality when `exact_match` and LIKE otherwise; each result row is formatted
as `collection/name`. -/
def searchObjectsWithIdentifier (sess : Session) (workingdirectory identifier : String)
    (exactMatch : Bool) : List String :=
  ((sess.catalog.filter (fun q =>
      likeMatch (workingdirectory ++ "%").toList q.1.toList &&
      (if exactMatch then q.2 == identifier ++ "%"
       else likeMatch (identifier ++ "%").toList q.2.toList))).map
    (fun q => q.1 ++ "/" ++ q.2))

/-- Sequential effectful map over a list, stopping at the first error
(the shape of a Python for-loop that may raise). -/
def mapME {α β : Type} (f : α → Except String β) : List α → Except String (List β)
  | [] => .ok []
  | a :: l =>
    match f a with
    | .error e => .error e
    | .ok b =>
      match mapME f l with
      | .error e => .error e
      | .ok bs => .ok (b :: bs)

/-- Concatenation of a list of lists (the flat `new_rows` accumulator). -/
def catLists {α : Type} : List (List α) → List α
  | [] => []
  | l :: ls => l ++ catLists ls

/-- Ordered union of the labels of a list of rows, first occurrence first
(the column set `pd.concat` gives the combined frame). -/
def keyUnion (acc : List String) (r : Row) : List String :=
  acc ++ ((r.map Prod.fst).filter (fun k => !acc.contains k))

/-- Ordered union of the labels over all rows. -/
def colsUnion (rows : List Row) : List String :=
  rows.foldl keyUnion []

/-- One source row's contribution in `query_dataobjects_with_filename`:
read the identifier cell (`KeyError` if the label is missing), search, and
emit one output row per match with the identifier column dropped and the
resolved path stored under `DATAOBJECT`. -/
def queryRow (sess : Session) (workingdirectory : String) (exactMatch : Bool)
    (filenameColumn : String) (r : Row) : Except String (List Row) :=
  match lookupVal r filenameColumn with
  | none => .error "KeyError"
  | some identifier =>
    .ok ((searchObjectsWithIdentifier sess workingdirectory identifier exactMatch).map
      (fun path => setVal (dropKey r filenameColumn) DATAOBJECT path))

/-- Embedding of `query_dataobjects_with_filename` (lines 119-143): expand
every source row into one row per search match; when no row matched at all,
return an empty table whose columns are the non-identifier columns followed
by `DATAOBJECT`. -/
def queryDataobjectsWithFilename (sess : Session) (df : Table)
    (filenameColumn workingdirectory : String) (exactMatch : Bool) : Except String Table :=
  if df.columns.contains filenameColumn then
    match mapME (queryRow sess workingdirectory exactMatch filenameColumn) df.rows with
    | .error e => .error e
    | .ok ls =>
      let newRows := catLists ls
      if newRows.isEmpty then
        .ok (Table.mk ((df.columns.filter (fun c => c != filenameColumn)) ++ [DATAOBJECT]) [])
      else
        .ok (Table.mk (colsUnion newRows) newRows)
  else .error "KeyError"

/-- Number of leading slashes of a character list. -/
def leadSlashes : List Char → Nat
  | '/' :: r => leadSlashes r + 1
  | _ => 0

/-- PurePosixPath anchor rule: exactly two leading slashes keep a double
slash anchor, any other positive number collapse to a single slash. -/
def pathAnchor (cs : List Char) : String :=
  if leadSlashes cs = 2 then "//" else if 1 ≤ leadSlashes cs then "/" else ""

/-- Split a character list on slashes (Python `str.split("/")`). -/
def splitOnSlash : List Char → List (List Char)
  | [] => [[]]
  | c :: rest =>
    let r := splitOnSlash rest
    if c = '/' then [] :: r
    else
      match r with
      | [] => [[c]]
      | g :: gs => (c :: g) :: gs

/-- A parsed PurePosixPath: anchor plus components. -/
structure PurePath where
  anchor : String
  parts : List String
deriving DecidableEq

/-- Parse a string as PurePosixPath: compute the anchor and the components,
dropping empty and single-dot components. -/
def parsePath (s : String) : PurePath :=
  PurePath.mk (pathAnchor s.toList)
    (((splitOnSlash s.toList).filter (fun p => !(p.isEmpty || p = ['.']))).map
      (fun p => String.mk p))

/-- Join components with slashes. -/
def joinSlash : List String → String
  | [] => ""
  | [p] => p
  | p :: ps => p ++ "/" ++ joinSlash ps

/-- Stringify a PurePosixPath: the empty relative path prints as a dot. -/
def pathStr (p : PurePath) : String :=
  if p.anchor == "" && p.parts.isEmpty then "." else p.anchor ++ joinSlash p.parts

/-- PurePosixPath joining: an anchored (absolute) right operand discards the
left operand entirely. -/
def pathJoin (a b : PurePath) : PurePath :=
  if b.anchor == "" then PurePath.mk a.anchor (a.parts ++ b.parts) else b

/-- Embedding of `str(Path(workingdirectory) / Path(x))` (line 151). -/
def pathJoinStr (w x : String) : String :=
  pathStr (pathJoin (parsePath w) (parsePath x))

/-- Whether a string begins with a slash, i.e. denotes an absolute path. -/
def startsWithSlash (s : String) : Bool :=
  match s.toList with
  | c :: _ => c == '/'
  | [] => false

/-- Rename a column label in the column list and in every row
(pandas `DataFrame.rename`: a missing label is silently a no-op). -/
def renameCol (t : Table) (old new : String) : Table :=
  Table.mk (t.columns.map (fun c => if c == old then new else c))
    (t.rows.map (fun r => r.map (fun kv => if kv.1 == old then (new, kv.2) else kv)))

/-- Embedding of `chain_collection_and_filename` (lines 146-152): rename the
identifier column to `DATAOBJECT`, then replace each of its values by the
pathlib join of the working directory with the value; reading the
`DATAOBJECT` column raises `KeyError` when it does not exist after the
rename. -/
def chainCollectionAndFilename (t : Table) (filenameColumn workingdirectory : String) :
    Except String Table :=
  let t1 := renameCol t filenameColumn DATAOBJECT
  if t1.columns.contains DATAOBJECT then
    match mapME (fun r =>
        match lookupVal r DATAOBJECT with
        | none => Except.error "KeyError"
        | some v => Except.ok (setVal r DATAOBJECT (pathJoinStr workingdirectory v))) t1.rows with
    | .error e => .error e
    | .ok rs => .ok (Table.mk t1.columns rs)
  else .error "KeyError"

/-- Select the columns satisfying a predicate, preserving order, restricting
every row accordingly (the `sheet[[c for c in sheet.columns if ...]]` idiom). -/
def selectCols (t : Table) (keep : String → Bool) : Table :=
  Table.mk (t.columns.filter keep) (t.rows.map (fun r => r.filter (fun kv => keep kv.1)))

/-- Embedding of the whitelist/blacklist step of `process_tabular_file`
(lines 506-511): a present whitelist keeps `DATAOBJECT` plus the listed
columns; otherwise a present blacklist removes exactly the listed columns;
otherwise the table is unchanged.  A config carrying both is resolved in
favour of the whitelist by the if/elif. -/
def applyFilter (wl bl : Option (List String)) (t : Table) : Table :=
  match wl with
  | some w => selectCols t (fun c => (DATAOBJECT :: w).contains c)
  | none =>
    match bl with
    | some b => selectCols t (fun c => !b.contains c)
    | none => t

/-- The `path_column` entry of the parsed yaml configuration. -/
structure PathColumn where
  columnName : String
  pathType : String
  workdir : String
deriving DecidableEq

/-- The parsed yaml configuration consumed by `apply_config`.  Optional
fields model the `"whitelist" in yml` presence tests. -/
structure Config where
  sheets : List String
  pathColumn : PathColumn
  whitelist : Option (List String)
  blacklist : Option (List String)
deriving DecidableEq

/-- Processing of one parsed sheet inside `process_tabular_file`
(lines 485-512): `.ok none` means the sheet is dropped (`continue`), which
happens when its name is not configured or when part resolution produced an
empty table; an unknown `path_type` falls through to the rename-only
(absolute) branch. -/
def processSheet (cfg : Config) (sess : Session) (name : String) (t : Table) :
    Except String (Option Table) :=
  if cfg.sheets.contains name then
    let col := cfg.pathColumn.columnName
    if cfg.pathColumn.pathType == "part" then
      match queryDataobjectsWithFilename sess t col cfg.pathColumn.workdir false with
      | .error e => .error e
      | .ok q =>
        if q.rows.isEmpty then .ok none
        else .ok (some (applyFilter cfg.whitelist cfg.blacklist q))
    else if cfg.pathColumn.pathType == "relative" then
      match chainCollectionAndFilename t col cfg.pathColumn.workdir with
      | .error e => .error e
      | .ok q => .ok (some (applyFilter cfg.whitelist cfg.blacklist q))
    else
      .ok (some (applyFilter cfg.whitelist cfg.blacklist (renameCol t col DATAOBJECT)))
  else .ok none

/-- Embedding of `process_tabular_file` (the closure returned by
`apply_config`): iterate over the parsed sheets in the order of the source
file, keeping the processed ones; a raised error aborts the whole run. -/
def processTabularFile (cfg : Config) (sess : Session) :
    List (String × Table) → Except String (List (String × Table))
  | [] => .ok []
  | entry :: rest =>
    match processSheet cfg sess entry.1 entry.2 with
    | .error e => .error e
    | .ok none => processTabularFile cfg sess rest
    | .ok (some t) =>
      match processTabularFile cfg sess rest with
      | .error e => .error e
      | .ok others => .ok ((entry.1, t) :: others)

/-- Embedding of `dict_to_avus`: `str` coercion of names and values, the
identity on the string-valued model. -/
def dictToAvus (d : AvuDict) : AvuDict :=
  d.map (fun kv => (toString kv.1, toString kv.2))

/-- Embedding of `apply_metadata_to_data_object` (lines 171-183): look the
object up, apply all attribute additions in one atomic call, return `true`;
any exception (object missing, or the atomic call failing, decided by the
`addFails` oracle) is swallowed and reported as `false`, leaving the store
untouched. -/
def applyMetadataToDataObject (addFails : String → AvuDict → Bool) (sess : Session)
    (path : String) (avuDict : AvuDict) : Bool × Session :=
  match sess.objects.find? (fun o => o.1 == path) with
  | none => (false, sess)
  | some _ =>
    if addFails path (dictToAvus avuDict) then (false, sess)
    else
      (true, Session.mk sess.catalog
        (sess.objects.map (fun o =>
          if o.1 == path then (o.1, o.2 ++ dictToAvus avuDict) else o)))

/-- One step of `generate_rows`: the resolved identifier (raising `KeyError`
when the `DATAOBJECT` column is missing) and the remaining columns as the
attribute dictionary. -/
def generateRow (r : Row) : Except String (String × AvuDict) :=
  match lookupVal r DATAOBJECT with
  | none => .error "KeyError"
  | some v => .ok (v, dropKey r DATAOBJECT)

/-- The per-row loop of `run` (lines 450-460) over one sheet's rows: each
row yields `res = True` under `dry_run` (the applier is not invoked at all)
and the applier's boolean otherwise; the last row's attribute dictionary is
remembered, because the report reads the leaked loop variable `md_dict`. -/
def runRows (addFails : String → AvuDict → Bool) (dryRun : Bool) :
    Session → Option AvuDict → List Row →
    Except String (List Bool × Session × Option AvuDict)
  | sess, lastMd, [] => .ok ([], sess, lastMd)
  | sess, _, r :: rs =>
    match generateRow r with
    | .error e => .error e
    | .ok pm =>
      let pr := if dryRun then (true, sess) else applyMetadataToDataObject addFails sess pm.1 pm.2
      match runRows addFails dryRun pr.2 (some pm.2) rs with
      | .error e => .error e
      | .ok out => .ok (pr.1 :: out.1, out.2)

/-- The per-sheet summary `run` prints: counters plus the size and keys of
the attribute dictionary the report reads. -/
structure Report where
  sheetName : String
  applied : Nat
  errors : Nat
  avuCount : Nat
  avuKeys : List String
deriving DecidableEq

/-- One sheet of the `run` loop: process the rows, then build the report
from the counters and from `md_dict`; when no row ever bound `md_dict`
(within this sheet or an earlier one), the report line raises
`UnboundLocalError`. -/
def runSheet (addFails : String → AvuDict → Bool) (dryRun : Bool) (sess : Session)
    (lastMd : Option AvuDict) (name : String) (t : Table) :
    Except String (Report × Session × Option AvuDict) :=
  match runRows addFails dryRun sess lastMd t.rows with
  | .error e => .error e
  | .ok res =>
    match res.2.2 with
    | none => .error "UnboundLocalError"
    | some md =>
      .ok (Report.mk name (res.1.countP (fun b => b)) (res.1.countP (fun b => !b))
        md.length (md.map Prod.fst), res.2.1, some md)

/-- The sheet loop of `run`: sheets already preprocessed, processed in
order, threading the session and the leaked `md_dict`. -/
def runAllSheets (addFails : String → AvuDict → Bool) (dryRun : Bool) :
    Session → Option AvuDict → List (String × Table) →
    Except String (List Report × Session)
  | sess, _, [] => .ok ([], sess)
  | sess, lastMd, entry :: rest =>
    match runSheet addFails dryRun sess lastMd entry.1 entry.2 with
    | .error e => .error e
    | .ok res =>
      match runAllSheets addFails dryRun res.2.1 res.2.2 rest with
      | .error e => .error e
      | .ok out => .ok (res.1 :: out.1, out.2)

/-- The whole `run` command on an already-parsed dataset: preprocess every
sheet with the configuration, then apply metadata sheet by sheet. -/
def runCommand (cfg : Config) (dryRun : Bool) (addFails : String → AvuDict → Bool)
    (sess : Session) (ds : List (String × Table)) : Except String (List Report × Session) :=
  match processTabularFile cfg sess ds with
  | .error e => .error e
  | .ok sheets => runAllSheets addFails dryRun sess none sheets

/-- The always-succeeding atomic-apply oracle. -/
def noFail : String → AvuDict → Bool := fun _ _ => false

/-- The oracle under which every atomic attribute call raises (the store
rejecting the write) while object lookups are untouched. -/
def alwaysFail : String → AvuDict → Bool := fun _ _ => true

/-! Concrete stores, configurations and tables used to instantiate the
theorems below. -/

/-- A store with one bare object. -/
def sessW1 : Session := Session.mk [] [("/z/home/p/f", [])]

/-- One resolved row targeting the object of `sessW1`. -/
def rowsW1 : List Row := [[("dataobject", "/z/home/p/f"), ("k", "v")]]

/-- The store `sessW1` after the row of `rowsW1` has been applied. -/
def sessW1' : Session := Session.mk [] [("/z/home/p/f", [("k", "v")])]

/-- A resolved table whose target column is named `dataobject`. -/
def tC2 : Table := Table.mk ["dataobject", "tag"] [[("dataobject", "/z/home/p/f"), ("tag", "x")]]

/-- A catalog holding an object named `a`, one literally named `a%`, and one
in the sibling collection `/z/home/p2`. -/
def sessC3 : Session := Session.mk [("/z/home/p", "a"), ("/z/home/p", "a%"), ("/z/home/p2", "b")] []

/-- A relative-strategy configuration expecting identifier column `id`. -/
def cfgC4 : Config := Config.mk ["s"] (PathColumn.mk "id" "relative" "/z/home/p") none none

/-- A dataset whose only sheet lacks the identifier column `id`. -/
def dsC4 : List (String × Table) := [("s", Table.mk ["x"] [[("x", "1")]])]

/-- An absolute-strategy configuration declaring sheets in the order `a`, `b`. -/
def cfgC4o : Config := Config.mk ["a", "b"] (PathColumn.mk "id" "absolute" "") none none

/-- A dataset holding the configured sheets in the opposite order `b`, `a`. -/
def dsC4o : List (String × Table) :=
  [("b", Table.mk ["id"] [[("id", "/q")]]), ("a", Table.mk ["id"] [[("id", "/p")]])]

/-- The empty store. -/
def sess0 : Session := Session.mk [] []

/-- A catalog with two objects whose names start with `f`. -/
def sessC5 : Session := Session.mk [("/z/home/p", "f1"), ("/z/home/p", "f2")] []

/-- A one-row table whose identifier cell is the name fragment `f`. -/
def dfC5 : Table := Table.mk ["id", "a"] [[("id", "f"), ("a", "v")]]

/-- A configuration carrying both a whitelist and a blacklist. -/
def cfgC6 : Config := Config.mk ["s"] (PathColumn.mk "id" "absolute" "") (some ["a"]) (some ["a"])

/-- A store holding the object the `dsC6` sheet targets. -/
def sessC6 : Session := Session.mk [] [("/z/home/p/f", [])]

/-- A dataset with one sheet resolvable against `sessC6`. -/
def dsC6 : List (String × Table) := [("s", Table.mk ["id", "a"] [[("id", "/z/home/p/f"), ("a", "v")]])]

/-- A part-strategy configuration searching under `/z/home/p`. -/
def cfgC8 : Config := Config.mk ["s"] (PathColumn.mk "id" "part" "/z/home/p") none none

/-- A one-row sheet whose identifier matches nothing in an empty catalog. -/
def tC8 : Table := Table.mk ["id", "a"] [[("id", "x"), ("a", "v")]]

/-- The dataset holding only `tC8`. -/
def dsC8 : List (String × Table) := [("s", tC8)]

/-- An absolute-strategy configuration for the sheet `s`. -/
def cfgC9 : Config := Config.mk ["s"] (PathColumn.mk "id" "absolute" "") none none

/-- A dataset whose only sheet has a header but zero rows. -/
def dsC9 : List (String × Table) := [("s", Table.mk ["id"] [])]

/-- A resolved one-row sheet with two attribute columns. -/
def tW9 : Table := Table.mk ["dataobject", "a", "b"] [[("dataobject", "/p"), ("a", "1"), ("b", "2")]]

/-- A table whose identifier value is an absolute but non-normalized path. -/
def tC10 : Table := Table.mk ["id"] [[("id", "/a//b/")]]

/-! Helper lemmas. -/

theorem all_eq_replicate : ∀ l : List Bool, l.all (fun b => b) = true →
    l = List.replicate l.length true := by
  intro l
  induction l with
  | nil => intro _; rfl
  | cons b l ih =>
    intro h
    simp only [List.all_cons, Bool.and_eq_true] at h
    rw [List.length_cons, List.replicate_succ, h.1, ← ih h.2]

theorem runRows_nil (f : String → AvuDict → Bool) (d : Bool) (sess : Session)
    (lastMd : Option AvuDict) :
    runRows f d sess lastMd [] = .ok ([], sess, lastMd) := rfl

theorem runRows_cons_err (f : String → AvuDict → Bool) (d : Bool) (sess : Session)
    (lastMd : Option AvuDict) (r : Row) (rs : List Row) (e : String)
    (hg : generateRow r = .error e) :
    runRows f d sess lastMd (r :: rs) = .error e := by
  simp [runRows, hg]

theorem runRows_cons_ok (f : String → AvuDict → Bool) (d : Bool) (sess : Session)
    (lastMd : Option AvuDict) (r : Row) (rs : List Row) (pm : String × AvuDict)
    (hg : generateRow r = .ok pm) :
    runRows f d sess lastMd (r :: rs) =
      match runRows f d (if d then (true, sess) else
          applyMetadataToDataObject f sess pm.1 pm.2).2 (some pm.2) rs with
      | .error e => .error e
      | .ok out => .ok ((if d then (true, sess) else
          applyMetadataToDataObject f sess pm.1 pm.2).1 :: out.1, out.2) := by
  simp [runRows, hg]

theorem runRows_cons_false (f : String → AvuDict → Bool) (sess : Session)
    (lastMd : Option AvuDict) (r : Row) (rs : List Row) (pm : String × AvuDict)
    (hg : generateRow r = .ok pm) :
    runRows f false sess lastMd (r :: rs) =
      match runRows f false (applyMetadataToDataObject f sess pm.1 pm.2).2 (some pm.2) rs with
      | .error e => .error e
      | .ok out => .ok ((applyMetadataToDataObject f sess pm.1 pm.2).1 :: out.1, out.2) := by
  simp [runRows, hg]

theorem runRows_cons_true (f : String → AvuDict → Bool) (sess : Session)
    (lastMd : Option AvuDict) (r : Row) (rs : List Row) (pm : String × AvuDict)
    (hg : generateRow r = .ok pm) :
    runRows f true sess lastMd (r :: rs) =
      match runRows f true sess (some pm.2) rs with
      | .error e => .error e
      | .ok out => .ok (true :: out.1, out.2) := by
  simp [runRows, hg]

theorem runRows_length (f : String → AvuDict → Bool) (d : Bool) :
    ∀ (rows : List Row) (sess : Session) (lastMd : Option AvuDict)
      (outs : List Bool) (sess' : Session) (md' : Option AvuDict),
      runRows f d sess lastMd rows = .ok (outs, sess', md') →
      outs.length = rows.length := by
  intro rows
  induction rows with
  | nil =>
    intro sess lastMd outs sess' md' h
    rw [runRows_nil] at h
    simp only [Except.ok.injEq, Prod.mk.injEq] at h
    rw [← h.1]
    rfl
  | cons r rs ih =>
    intro sess lastMd outs sess' md' h
    cases hg : generateRow r with
    | error e => rw [runRows_cons_err f d sess lastMd r rs e hg] at h; simp at h
    | ok pm =>
      rw [runRows_cons_ok f d sess lastMd r rs pm hg] at h
      cases hrec : runRows f d (if d then (true, sess) else
          applyMetadataToDataObject f sess pm.1 pm.2).2 (some pm.2) rs with
      | error e => rw [hrec] at h; simp at h
      | ok out =>
        rw [hrec] at h
        simp only [Except.ok.injEq, Prod.mk.injEq] at h
        rw [← h.1, List.length_cons, List.length_cons, ih _ _ _ _ _ hrec]

theorem runRows_dry_of_real (f : String → AvuDict → Bool) :
    ∀ (rows : List Row) (s s₀ : Session) (m : Option AvuDict)
      (outs : List Bool) (s' : Session) (m' : Option AvuDict),
      runRows f false s m rows = .ok (outs, s', m') →
      runRows f true s₀ m rows = .ok (List.replicate rows.length true, s₀, m') := by
  intro rows
  induction rows with
  | nil =>
    intro s s₀ m outs s' m' h
    rw [runRows_nil] at h
    simp only [Except.ok.injEq, Prod.mk.injEq] at h
    rw [runRows_nil, ← h.2.2]
    rfl
  | cons r rs ih =>
    intro s s₀ m outs s' m' h
    cases hg : generateRow r with
    | error e => rw [runRows_cons_err f false s m r rs e hg] at h; simp at h
    | ok pm =>
      rw [runRows_cons_false f s m r rs pm hg] at h
      rw [runRows_cons_true f s₀ m r rs pm hg]
      cases hrec : runRows f false (applyMetadataToDataObject f s pm.1 pm.2).2 (some pm.2) rs with
      | error e => rw [hrec] at h; simp at h
      | ok out =>
        obtain ⟨o1, o2, o3⟩ := out
        rw [hrec] at h
        simp only [Except.ok.injEq, Prod.mk.injEq] at h
        have hdry := ih (applyMetadataToDataObject f s pm.1 pm.2).2 s₀ (some pm.2)
          o1 o2 o3 hrec
        rw [hdry]
        show Except.ok (true :: List.replicate rs.length true, s₀, o3) =
          Except.ok (List.replicate (r :: rs).length true, s₀, m')
        rw [h.2.2, List.length_cons, List.replicate_succ]

/-- C1 counterexample: with the store holding the target object (so the
remote lookup step succeeds) but the atomic attribute call raising (the
`alwaysFail` oracle), the real pass reports the row as an error while the
dry pass — which never invokes `apply_metadata_to_data_object` at all,
`res = True` being hard-coded — reports it as applied: the outcome
sequences are `[false]` versus `[true]`, refuting parity under the claim's
lookup-only proviso, and refuting that the applier performs any
lookup-equivalent bookkeeping under `dry_run`. -/
theorem c1_dry_run_counterexample :
    runRows alwaysFail false sessW1 none rowsW1 = .ok ([false], sessW1, some [("k", "v")])
    ∧ runRows alwaysFail true sessW1 none rowsW1 = .ok ([true], sessW1, some [("k", "v")])
    ∧ ([false] : List Bool) ≠ [true] :=
  ⟨rfl, rfl, by decide⟩

/-- C1 amended: whenever the real (`dry_run = false`) pass over a sheet's
rows runs to completion, the dry pass runs to completion from the same
state with every per-row outcome hard-coded to applied, the same report
bookkeeping, and the store untouched — the applier is never invoked under
`dry_run`, so no remote call and no lookup-equivalent bookkeeping happens;
consequently the two outcome sequences are identical precisely when every
real-mode application — the object lookup AND the atomic attribute write —
succeeds, not merely when the lookup does. -/
theorem c1_dry_run_parity (f : String → AvuDict → Bool) (sess sess' : Session)
    (lastMd md' : Option AvuDict) (rows : List Row) (outs : List Bool)
    (h : runRows f false sess lastMd rows = .ok (outs, sess', md')) :
    runRows f true sess lastMd rows = .ok (List.replicate rows.length true, sess, md')
    ∧ (runRows f true sess lastMd rows = .ok (outs, sess, md') ↔
        outs.all (fun b => b) = true) := by
  have hdry := runRows_dry_of_real f rows sess sess lastMd outs sess' md' h
  refine ⟨hdry, ?_, ?_⟩
  · intro hd
    rw [hdry] at hd
    simp only [Except.ok.injEq, Prod.mk.injEq] at hd
    rw [← hd.1]
    simp only [List.all_eq_true]
    intro b hb
    exact List.eq_of_mem_replicate hb
  · intro hall
    rw [hdry, all_eq_replicate outs hall,
      runRows_length f false rows sess lastMd outs sess' md' h]

/-- Witness for C1 at a concrete store and row list whose real pass
succeeds. -/
theorem c1_dry_run_parity_concrete :
    runRows noFail true sessW1 none rowsW1 =
      .ok (List.replicate rowsW1.length true, sessW1, some [("k", "v")]) :=
  (c1_dry_run_parity noFail sessW1 sessW1' none (some [("k", "v")]) rowsW1 [true]
    (by decide)).1

/-- C7: error shape of the metadata applier.  For every oracle, store state,
path and attribute dictionary, `apply_metadata_to_data_object` returns
`false` exactly when the object is missing or the atomic attribute call
raises, in which case the store is left untouched (no partial application);
it returns `true` otherwise, in which case a single atomic step extends the
object's metadata with the whole attribute set; being a total function into
`Bool × Session`, it never propagates an exception to the caller. -/
theorem c7_applier_result_shape (f : String → AvuDict → Bool) (sess : Session)
    (path : String) (d : AvuDict) :
    ((applyMetadataToDataObject f sess path d).1 = false ↔
      (sess.objects.find? (fun o => o.1 == path) = none ∨ f path (dictToAvus d) = true))
    ∧ ((applyMetadataToDataObject f sess path d).1 = false →
        (applyMetadataToDataObject f sess path d).2 = sess)
    ∧ ((applyMetadataToDataObject f sess path d).1 = true →
        (applyMetadataToDataObject f sess path d).2 = Session.mk sess.catalog
          (sess.objects.map (fun o => if o.1 == path then (o.1, o.2 ++ dictToAvus d) else o))) := by
  cases hfind : sess.objects.find? (fun o => o.1 == path) with
  | none => simp [applyMetadataToDataObject, hfind]
  | some o =>
    cases hf : f path (dictToAvus d) with
    | false => simp [applyMetadataToDataObject, hfind, hf]
    | true => simp [applyMetadataToDataObject, hfind, hf]

/-- Witness for C7 at the empty store: the lookup fails, the applier
reports `false` and the store is unchanged. -/
theorem c7_applier_result_shape_concrete :
    (applyMetadataToDataObject noFail sess0 "/q" [("k", "v")]).1 = false ∧
      (applyMetadataToDataObject noFail sess0 "/q" [("k", "v")]).2 = sess0 := by
  have hc := c7_applier_result_shape noFail sess0 "/q" [("k", "v")]
  have h1 : (applyMetadataToDataObject noFail sess0 "/q" [("k", "v")]).1 = false :=
    hc.1.mpr (Or.inl rfl)
  exact ⟨h1, hc.2.1 h1⟩

/-- C3: divergence of `search_objects_with_identifier` from the claimed
semantics, evaluated at the failing input.  Because the code appends a
percent sign to the identifier even when the operator is `=`, the
exact-match search for identifier `a` misses the object named `a` and
returns only the object literally named `a%` (first conjunct); prefix mode
matches both (second conjunct); moreover the collection condition is a
string-prefix match, so the sibling collection `/z/home/p2` is searched as
an alleged part of the `/z/home/p` subtree (third conjunct). -/
theorem c3_exact_match_divergence :
    searchObjectsWithIdentifier sessC3 "/z/home/p" "a" true = ["/z/home/p/a%"]
    ∧ searchObjectsWithIdentifier sessC3 "/z/home/p" "a" false =
        ["/z/home/p/a", "/z/home/p/a%"]
    ∧ searchObjectsWithIdentifier sessC3 "/z/home/p" "b" false = ["/z/home/p2/b"] := by
  decide

/-- C2 counterexample: a blacklist containing the target column name does
remove the target column — filtering the resolved table `tC2` with the
blacklist `[dataobject]` leaves only `tag`, so the filtered table does not
contain the target column, contradicting the claimed unconditional
retention. -/
theorem c2_blacklist_counterexample :
    (applyFilter none (some ["dataobject"]) tC2).columns = ["tag"]
    ∧ ¬ DATAOBJECT ∈ (applyFilter none (some ["dataobject"]) tC2).columns := by
  decide

/-- C2 amended: blacklist filtering keeps exactly the columns not listed in
the blacklist, with no special retention of the target column: the target
column survives if and only if it was present and the blacklist does not
contain its (post-rename) name `dataobject`. -/
theorem c2_blacklist_minus (bl : List String) (t : Table) :
    (applyFilter none (some bl) t).columns = t.columns.filter (fun c => !bl.contains c)
    ∧ (∀ c, c ∈ (applyFilter none (some bl) t).columns ↔ c ∈ t.columns ∧ ¬ c ∈ bl)
    ∧ (DATAOBJECT ∈ (applyFilter none (some bl) t).columns ↔
        DATAOBJECT ∈ t.columns ∧ ¬ DATAOBJECT ∈ bl) := by
  refine ⟨rfl, ?_, ?_⟩
  · intro c
    simp [applyFilter, selectCols, List.mem_filter]
  · simp [applyFilter, selectCols, List.mem_filter]

/-- C10 counterexample: under the relative strategy an absolute identifier
value does override the workdir, but it is not kept unchanged — the
non-normalized value `/a//b/` resolves to its pathlib normalization `/a/b`. -/
theorem c10_absolute_counterexample :
    chainCollectionAndFilename tC10 "id" "/z/home/p" =
      .ok (Table.mk ["dataobject"] [[("dataobject", "/a/b")]])
    ∧ pathJoinStr "/z/home/p" "/a//b/" ≠ "/a//b/" := by
  constructor
  · rfl
  · decide

theorem leadSlashes_pos (t : List Char) : 1 ≤ leadSlashes ('/' :: t) := by
  simp only [leadSlashes]
  omega

theorem pathAnchor_ne_of_slash (t : List Char) : pathAnchor ('/' :: t) ≠ "" := by
  by_cases h2 : leadSlashes ('/' :: t) = 2
  · unfold pathAnchor
    rw [if_pos h2]
    decide
  · unfold pathAnchor
    rw [if_neg h2, if_pos (leadSlashes_pos t)]
    decide

theorem parsePath_anchor_ne (x : String) (h : startsWithSlash x = true) :
    (parsePath x).anchor ≠ "" := by
  unfold startsWithSlash at h
  cases hx : x.toList with
  | nil => rw [hx] at h; simp at h
  | cons c t =>
    rw [hx] at h
    simp only [beq_iff_eq] at h
    subst h
    show pathAnchor x.toList ≠ ""
    rw [hx]
    exact pathAnchor_ne_of_slash t

/-- C10 amended: for an identifier value that begins with a slash, the
pathlib join performed by `chain_collection_and_filename` ignores the
workdir entirely and returns the pathlib normalization of the value; in
particular the value is kept unchanged exactly when it is already in
pathlib normal form. -/
theorem c10_absolute_override (w w' x : String) (h : startsWithSlash x = true) :
    pathJoinStr w x = pathStr (parsePath x)
    ∧ pathJoinStr w x = pathJoinStr w' x
    ∧ (pathStr (parsePath x) = x → pathJoinStr w x = x) := by
  have ha : (parsePath x).anchor ≠ "" := parsePath_anchor_ne x h
  have hb : ((parsePath x).anchor == "") = false := by
    rw [beq_eq_false_iff_ne]
    exact ha
  have hj : ∀ u : String, pathJoinStr u x = pathStr (parsePath x) := by
    intro u
    unfold pathJoinStr pathJoin
    rw [hb]
    simp
  exact ⟨hj w, by rw [hj w, hj w'], fun hx => by rw [hj w, hx]⟩

/-- Witness for C10 at a normalized absolute value. -/
theorem c10_absolute_override_concrete :
    pathJoinStr "/w" "/a/b" = pathStr (parsePath "/a/b")
    ∧ pathJoinStr "/w" "/a/b" = pathJoinStr "/v" "/a/b"
    ∧ pathJoinStr "/w" "/a/b" = "/a/b" := by
  have h := c10_absolute_override "/w" "/v" "/a/b" (by decide)
  exact ⟨h.1, h.2.1, h.2.2 (by decide)⟩

/-! Unfolding lemmas for `processTabularFile`. -/

theorem processSheet_not_configured (cfg : Config) (sess : Session) (n : String) (t : Table)
    (hc : cfg.sheets.contains n = false) : processSheet cfg sess n t = .ok none := by
  have hc' : ¬ n ∈ cfg.sheets := by simpa using hc
  simp [processSheet, hc']

theorem processTF_cons_err (cfg : Config) (sess : Session) (n : String) (t : Table)
    (ds : List (String × Table)) (e : String)
    (hps : processSheet cfg sess n t = .error e) :
    processTabularFile cfg sess ((n, t) :: ds) = .error e := by
  simp [processTabularFile, hps]

theorem processTF_cons_skip (cfg : Config) (sess : Session) (n : String) (t : Table)
    (ds : List (String × Table)) (hps : processSheet cfg sess n t = .ok none) :
    processTabularFile cfg sess ((n, t) :: ds) = processTabularFile cfg sess ds := by
  simp [processTabularFile, hps]

theorem processTF_cons_keep (cfg : Config) (sess : Session) (n : String) (t : Table)
    (ds : List (String × Table)) (t' : Table)
    (hps : processSheet cfg sess n t = .ok (some t')) :
    processTabularFile cfg sess ((n, t) :: ds) =
      match processTabularFile cfg sess ds with
      | .error e => .error e
      | .ok others => .ok ((n, t') :: others) := by
  simp [processTabularFile, hps]

/-- C4 counterexample: first conjunct — a configured sheet present in the
dataset but lacking the identifier column is not skipped: the run aborts
with a `KeyError`.  Second conjunct — configured sheets are processed in
the dataset's order (`b` before `a`), not in the configured order
(`a` before `b`). -/
theorem c4_skip_counterexample :
    processTabularFile cfgC4 sess0 dsC4 = .error "KeyError"
    ∧ (processTabularFile cfgC4o sess0 dsC4o).map (fun l => l.map Prod.fst) =
        .ok ["b", "a"] := by
  exact ⟨rfl, rfl⟩

/-- C4 amended: a dataset sheet that is not configured is skipped silently
(contributing neither output nor error), and whenever the run succeeds the
processed sheet names form a sublist of the dataset's sheet names filtered
by configuration membership — i.e. processing follows the dataset's order
restricted to configured names; a configured sheet absent from the dataset
is never reached at all.  (A present sheet lacking the identifier column
instead aborts the run, as the counterexample shows.) -/
theorem c4_skip_and_order (cfg : Config) (sess : Session) :
    (∀ (n : String) (t : Table) (ds : List (String × Table)),
      cfg.sheets.contains n = false →
      processTabularFile cfg sess ((n, t) :: ds) = processTabularFile cfg sess ds)
    ∧ ∀ (ds res : List (String × Table)),
        processTabularFile cfg sess ds = .ok res →
        List.Sublist (res.map Prod.fst)
          ((ds.map Prod.fst).filter (fun n => cfg.sheets.contains n)) := by
  constructor
  · intro n t ds h
    exact processTF_cons_skip cfg sess n t ds (processSheet_not_configured cfg sess n t h)
  · intro ds
    induction ds with
    | nil =>
      intro res h
      simp only [processTabularFile, Except.ok.injEq] at h
      rw [← h]
      exact List.nil_sublist _
    | cons entry rest ih =>
      obtain ⟨n, t⟩ := entry
      intro res h
      cases hps : processSheet cfg sess n t with
      | error e => rw [processTF_cons_err cfg sess n t rest e hps] at h; simp at h
      | ok o =>
        cases o with
        | none =>
          rw [processTF_cons_skip cfg sess n t rest hps] at h
          have hs := ih res h
          cases hc : cfg.sheets.contains n with
          | true =>
            simp only [List.map_cons, List.filter_cons, hc, if_true]
            exact List.Sublist.cons n hs
          | false =>
            simp only [List.map_cons, List.filter_cons, hc]
            simpa using hs
        | some t' =>
          rw [processTF_cons_keep cfg sess n t rest t' hps] at h
          cases hrest : processTabularFile cfg sess rest with
          | error e => rw [hrest] at h; simp at h
          | ok others =>
            rw [hrest] at h
            simp only [Except.ok.injEq] at h
            rw [← h]
            have hc : cfg.sheets.contains n = true := by
              cases hcb : cfg.sheets.contains n with
              | true => rfl
              | false =>
                rw [processSheet_not_configured cfg sess n t hcb] at hps
                simp at hps
            simp only [List.map_cons, List.filter_cons, hc, if_true]
            exact List.Sublist.cons₂ n (ih others hrest)

/-- Witness for C4: skipping an unconfigured sheet, and the dataset-order
sublist property at a successful concrete run. -/
theorem c4_skip_and_order_concrete :
    processTabularFile cfgC4o sess0 (("zzz", Table.mk ["id"] []) :: dsC4o) =
      processTabularFile cfgC4o sess0 dsC4o
    ∧ List.Sublist
        (([("b", Table.mk ["dataobject"] [[("dataobject", "/q")]]),
           ("a", Table.mk ["dataobject"] [[("dataobject", "/p")]])].map Prod.fst))
        ((dsC4o.map Prod.fst).filter (fun n => cfgC4o.sheets.contains n)) :=
  ⟨(c4_skip_and_order cfgC4o sess0).1 "zzz" (Table.mk ["id"] []) dsC4o (by decide),
   (c4_skip_and_order cfgC4o sess0).2 dsC4o
     [("b", Table.mk ["dataobject"] [[("dataobject", "/q")]]),
      ("a", Table.mk ["dataobject"] [[("dataobject", "/p")]])] (by decide)⟩

/-! Lemmas for part-strategy expansion. -/

theorem mapME_ok_of_forall {α β : Type} (f : α → Except String β) (g : α → β) :
    ∀ l : List α, (∀ a ∈ l, f a = .ok (g a)) → mapME f l = .ok (l.map g) := by
  intro l
  induction l with
  | nil => intro _; rfl
  | cons a l ih =>
    intro h
    have ha := h a (List.mem_cons_self a l)
    have hl := ih (fun x hx => h x (List.mem_cons_of_mem a hx))
    simp [mapME, ha, hl]

theorem queryRow_ok (sess : Session) (wd : String) (em : Bool) (col : String) (r : Row)
    (h : (lookupVal r col).isSome = true) :
    queryRow sess wd em col r =
      .ok ((searchObjectsWithIdentifier sess wd ((lookupVal r col).getD "") em).map
        (fun path => setVal (dropKey r col) DATAOBJECT path)) := by
  cases hv : lookupVal r col with
  | none => rw [hv] at h; simp at h
  | some v => simp [queryRow, hv]

theorem catLists_length {α : Type} : ∀ ls : List (List α),
    (catLists ls).length = (ls.map List.length).sum := by
  intro ls
  induction ls with
  | nil => rfl
  | cons l ls ih => simp [catLists, ih]

theorem catLists_map_nil {α β : Type} : ∀ l : List α,
    catLists (l.map (fun _ => ([] : List β))) = [] := by
  intro l
  induction l with
  | nil => rfl
  | cons a l ih => simpa [catLists] using ih

theorem catLists_replicate_nil {β : Type} : ∀ n : Nat,
    catLists (List.replicate n ([] : List β)) = [] := by
  intro n
  induction n with
  | zero => rfl
  | succ n ih => simpa [catLists, List.replicate_succ] using ih

/-- C5: part-strategy expansion cardinality.  When the identifier column
exists (otherwise `query_dataobjects_with_filename` raises `KeyError`), the
resolved rows are exactly the concatenation, in source-row order, of one
output row per search match in query-result order — each output row being
the source row with the identifier column dropped and the resolved path
stored under `dataobject` — so a row with `k` matches contributes exactly
`k` rows, a row with none contributes none, and the total output row count
is the sum of the per-row match counts. -/
theorem c5_part_expansion (sess : Session) (df : Table) (col wd : String) (em : Bool)
    (hcol : df.columns.contains col = true)
    (hval : ∀ r ∈ df.rows, (lookupVal r col).isSome = true) :
    (queryDataobjectsWithFilename sess df col wd em).map (fun tb => tb.rows) =
      .ok (catLists (df.rows.map (fun r =>
        (searchObjectsWithIdentifier sess wd ((lookupVal r col).getD "") em).map
          (fun path => setVal (dropKey r col) DATAOBJECT path))))
    ∧ (catLists (df.rows.map (fun r =>
        (searchObjectsWithIdentifier sess wd ((lookupVal r col).getD "") em).map
          (fun path => setVal (dropKey r col) DATAOBJECT path)))).length =
      (df.rows.map (fun r =>
        (searchObjectsWithIdentifier sess wd ((lookupVal r col).getD "") em).length)).sum := by
  have hq := mapME_ok_of_forall (queryRow sess wd em col)
    (fun r => (searchObjectsWithIdentifier sess wd ((lookupVal r col).getD "") em).map
      (fun path => setVal (dropKey r col) DATAOBJECT path))
    df.rows (fun r hr => queryRow_ok sess wd em col r (hval r hr))
  have hcol' : col ∈ df.columns := by simpa using hcol
  constructor
  · cases hemp : (catLists (df.rows.map (fun r =>
        (searchObjectsWithIdentifier sess wd ((lookupVal r col).getD "") em).map
          (fun path => setVal (dropKey r col) DATAOBJECT path)))).isEmpty with
    | true =>
      have hnil := List.isEmpty_iff.mp hemp
      simp [queryDataobjectsWithFilename, Except.map, hcol', hq, hemp, hnil]
    | false =>
      simp [queryDataobjectsWithFilename, Except.map, hcol', hq, hemp]
  · rw [catLists_length, List.map_map]
    simp [Function.comp_def]

/-- Witness for C5 at a concrete catalog and one-row table with two matches. -/
theorem c5_part_expansion_concrete :
    (queryDataobjectsWithFilename sessC5 dfC5 "id" "/z/home/p" false).map (fun tb => tb.rows) =
      .ok (catLists (dfC5.rows.map (fun r =>
        (searchObjectsWithIdentifier sessC5 "/z/home/p" ((lookupVal r "id").getD "") false).map
          (fun path => setVal (dropKey r "id") DATAOBJECT path))))
    ∧ (catLists (dfC5.rows.map (fun r =>
        (searchObjectsWithIdentifier sessC5 "/z/home/p" ((lookupVal r "id").getD "") false).map
          (fun path => setVal (dropKey r "id") DATAOBJECT path)))).length =
      (dfC5.rows.map (fun r =>
        (searchObjectsWithIdentifier sessC5 "/z/home/p" ((lookupVal r "id").getD "") false).length)).sum :=
  c5_part_expansion sessC5 dfC5 "id" "/z/home/p" false (by decide) (by decide)

/-- C6 counterexample: with both a whitelist and a blacklist present
(`cfgC6`), the run is not aborted by a configuration error — the pipeline
produces a processed sheet and applies its metadata, reporting one applied
row and mutating the store. -/
theorem c6_both_filters_counterexample :
    runCommand cfgC6 false noFail sessC6 dsC6 =
      .ok ([Report.mk "s" 1 0 1 ["a"]], Session.mk [] [("/z/home/p/f", [("a", "v")])]) := by
  rfl

/-- C6 amended: a configuration carrying both filters is not rejected;
the if/elif gives the whitelist precedence, so the run behaves exactly as
if the blacklist were absent. -/
theorem c6_whitelist_precedence (cfg : Config) (sess : Session) (ds : List (String × Table))
    (wl : List String) (h : cfg.whitelist = some wl) :
    processTabularFile cfg sess ds =
      processTabularFile (Config.mk cfg.sheets cfg.pathColumn cfg.whitelist none) sess ds := by
  induction ds with
  | nil => rfl
  | cons entry rest ih =>
    have hps : processSheet cfg sess entry.1 entry.2 =
        processSheet (Config.mk cfg.sheets cfg.pathColumn cfg.whitelist none) sess
          entry.1 entry.2 := by
      simp [processSheet, applyFilter, h]
    simp only [processTabularFile]
    rw [hps]
    simp only [ih]

/-- Witness for C6: the both-filters configuration preprocesses identically
to its blacklist-free variant. -/
theorem c6_whitelist_precedence_concrete :
    processTabularFile cfgC6 sessC6 dsC6 =
      processTabularFile (Config.mk cfgC6.sheets cfgC6.pathColumn cfgC6.whitelist none)
        sessC6 dsC6 :=
  c6_whitelist_precedence cfgC6 sessC6 dsC6 ["a"] rfl

/-- C8 counterexample: when no identifier of the sheet matches anything,
the whole run ends with an empty report list — no batch result carrying
`applied_count = 0, error_count = 0` is produced for the sheet, because
`process_tabular_file` drops the empty resolved sheet with `continue`. -/
theorem c8_no_match_counterexample :
    runCommand cfgC8 false noFail sess0 dsC8 = .ok ([], sess0) := by
  rfl

/-- C8 amended: under the part strategy, when the search returns no match
for any identifier, resolution yields an empty table whose columns are the
source's non-identifier columns followed by the target column, and the
sheet is then skipped entirely (excluded from the processed sheets), so no
batch result at all is reported for it. -/
theorem c8_empty_part_skip (cfg : Config) (sess : Session) (name : String) (t : Table)
    (hpt : cfg.pathColumn.pathType = "part")
    (hsheet : cfg.sheets.contains name = true)
    (hcol : t.columns.contains cfg.pathColumn.columnName = true)
    (hval : ∀ r ∈ t.rows, (lookupVal r cfg.pathColumn.columnName).isSome = true)
    (hsearch : ∀ identifier : String,
      searchObjectsWithIdentifier sess cfg.pathColumn.workdir identifier false = []) :
    queryDataobjectsWithFilename sess t cfg.pathColumn.columnName cfg.pathColumn.workdir false =
      .ok (Table.mk ((t.columns.filter (fun c => c != cfg.pathColumn.columnName))
        ++ [DATAOBJECT]) [])
    ∧ processSheet cfg sess name t = .ok none := by
  have hq := mapME_ok_of_forall
    (queryRow sess cfg.pathColumn.workdir false cfg.pathColumn.columnName)
    (fun _ => ([] : List Row)) t.rows
    (fun r hr => by
      rw [queryRow_ok sess cfg.pathColumn.workdir false cfg.pathColumn.columnName r (hval r hr),
        hsearch]
      rfl)
  have hcol' : cfg.pathColumn.columnName ∈ t.columns := by simpa using hcol
  have hquery : queryDataobjectsWithFilename sess t cfg.pathColumn.columnName
      cfg.pathColumn.workdir false =
      .ok (Table.mk ((t.columns.filter (fun c => c != cfg.pathColumn.columnName))
        ++ [DATAOBJECT]) []) := by
    simp [queryDataobjectsWithFilename, hcol', hq, catLists_map_nil, catLists_replicate_nil]
  refine ⟨hquery, ?_⟩
  have hsheet' : name ∈ cfg.sheets := by simpa using hsheet
  simp [processSheet, hsheet', hpt, hquery]

/-- Witness for C8 at the empty catalog. -/
theorem c8_empty_part_skip_concrete :
    queryDataobjectsWithFilename sess0 tC8 "id" "/z/home/p" false =
      .ok (Table.mk ["a", DATAOBJECT] [])
    ∧ processSheet cfgC8 sess0 "s" tC8 = .ok none :=
  c8_empty_part_skip cfgC8 sess0 "s" tC8 rfl (by decide) (by decide) (by decide)
    (fun _ => rfl)

/-! Lemmas for the report's attribute keys. -/

theorem lookupVal_isSome_of_mem (r : Row) (k : String) (h : k ∈ r.map Prod.fst) :
    (lookupVal r k).isSome = true := by
  induction r with
  | nil => simp at h
  | cons kv r ih =>
    cases hk : kv.1 == k with
    | true => simp [lookupVal, List.find?, hk]
    | false =>
      have hmem : k ∈ r.map Prod.fst := by
        simp only [List.map_cons, List.mem_cons] at h
        cases h with
        | inl h1 =>
          subst h1
          simp at hk
        | inr h2 => exact h2
      have hr := ih hmem
      unfold lookupVal at hr ⊢
      simp only [List.find?, hk]
      exact hr

theorem map_fst_filter_ne (r : Row) (k : String) :
    (dropKey r k).map Prod.fst = (r.map Prod.fst).filter (fun c => c != k) := by
  induction r with
  | nil => rfl
  | cons kv r ih =>
    simp only [dropKey] at ih ⊢
    cases hk : kv.1 != k with
    | true => simp [List.filter_cons, hk, ih]
    | false => simp [List.filter_cons, hk, ih]

theorem runRows_cons_ok' (f : String → AvuDict → Bool) (d : Bool) (sess : Session)
    (lastMd : Option AvuDict) (r : Row) (rs : List Row) (v : String) (md : AvuDict)
    (hg : generateRow r = .ok (v, md)) :
    runRows f d sess lastMd (r :: rs) =
      match runRows f d (if d then (true, sess) else
          applyMetadataToDataObject f sess v md).2 (some md) rs with
      | .error e => .error e
      | .ok out => .ok ((if d then (true, sess) else
          applyMetadataToDataObject f sess v md).1 :: out.1, out.2) := by
  simp [runRows, hg]

theorem runRows_lastMd (f : String → AvuDict → Bool) (d : Bool) :
    ∀ (rows : List Row) (sess : Session) (m : Option AvuDict),
      (∀ r ∈ rows, (lookupVal r DATAOBJECT).isSome = true) →
      ∃ outs sess', runRows f d sess m rows =
        .ok (outs, sess', rows.foldl (fun _ r => some (dropKey r DATAOBJECT)) m) := by
  intro rows
  induction rows with
  | nil => intro sess m _; exact ⟨[], sess, rfl⟩
  | cons r rs ih =>
    intro sess m hall
    have hr := hall r (List.mem_cons_self r rs)
    cases hv : lookupVal r DATAOBJECT with
    | none => rw [hv] at hr; simp at hr
    | some v =>
      have hg : generateRow r = .ok (v, dropKey r DATAOBJECT) := by
        simp [generateRow, hv]
      obtain ⟨outs, sess', hrec⟩ := ih (if d then (true, sess) else
          applyMetadataToDataObject f sess v (dropKey r DATAOBJECT)).2
        (some (dropKey r DATAOBJECT))
        (fun x hx => hall x (List.mem_cons_of_mem r hx))
      refine ⟨(if d then (true, sess) else
          applyMetadataToDataObject f sess v (dropKey r DATAOBJECT)).1 :: outs, sess', ?_⟩
      rw [runRows_cons_ok' f d sess m r rs v (dropKey r DATAOBJECT) hg, hrec]
      rfl

theorem foldl_lastMd : ∀ (rs : List Row) (r : Row) (m : Option AvuDict),
    ∃ rl, (rl = r ∨ rl ∈ rs) ∧
      (r :: rs).foldl (fun _ x => some (dropKey x DATAOBJECT)) m =
        some (dropKey rl DATAOBJECT) := by
  intro rs
  induction rs with
  | nil => intro r m; exact ⟨r, Or.inl rfl, rfl⟩
  | cons r2 rs' ih =>
    intro r m
    obtain ⟨rl, hm, he⟩ := ih r2 (some (dropKey r DATAOBJECT))
    refine ⟨rl, ?_, he⟩
    cases hm with
    | inl h1 => right; rw [h1]; exact List.mem_cons_self r2 rs'
    | inr h2 => right; exact List.mem_cons_of_mem r2 h2

/-- C9 counterexample: a configured sheet with a header but zero rows
reaches the report with the loop variable never bound, so the run raises
`UnboundLocalError` instead of reporting the (empty) union of attribute
keys — nothing records a union while processing. -/
theorem c9_keys_counterexample :
    runCommand cfgC9 false noFail sess0 dsC9 = .error "UnboundLocalError" := by
  rfl

/-- C9 amended: the report's key set is not an accumulated union — it is
the attribute keys of the **last** processed row (the leaked loop
variable).  For a sheet with at least one row all of whose rows carry
exactly the table's columns (the invariant pandas enforces), this
coincides with the per-row key set and hence with the union over all rows:
the reported keys are the non-target columns, and a key is reported iff
some row carries it.  (A zero-row sheet instead raises, as the
counterexample shows.) -/
theorem c9_report_keys (f : String → AvuDict → Bool) (d : Bool) (sess : Session)
    (lastMd : Option AvuDict) (name : String) (t : Table)
    (hne : t.rows ≠ [])
    (hwf : ∀ r ∈ t.rows, r.map Prod.fst = t.columns)
    (hdo : DATAOBJECT ∈ t.columns) :
    (runSheet f d sess lastMd name t).map (fun x => x.1.avuKeys) =
      .ok (t.columns.filter (fun c => c != DATAOBJECT))
    ∧ ∀ k, k ∈ t.columns.filter (fun c => c != DATAOBJECT) ↔
        ∃ r ∈ t.rows, k ∈ (dropKey r DATAOBJECT).map Prod.fst := by
  obtain ⟨r0, rs0, hrows⟩ : ∃ r0 rs0, t.rows = r0 :: rs0 := by
    cases ht : t.rows with
    | nil => exact absurd ht hne
    | cons a b => exact ⟨a, b, rfl⟩
  have hvals : ∀ r ∈ t.rows, (lookupVal r DATAOBJECT).isSome = true :=
    fun r hr => lookupVal_isSome_of_mem r DATAOBJECT (by rw [hwf r hr]; exact hdo)
  obtain ⟨outs, sess', hrun⟩ := runRows_lastMd f d t.rows sess lastMd hvals
  rw [hrows] at hrun
  obtain ⟨rl, hm, he⟩ := foldl_lastMd rs0 r0 lastMd
  rw [he] at hrun
  have hrl : rl ∈ t.rows := by
    rw [hrows]
    cases hm with
    | inl h1 => rw [h1]; exact List.mem_cons_self r0 rs0
    | inr h2 => exact List.mem_cons_of_mem r0 h2
  have hkeys : (dropKey rl DATAOBJECT).map Prod.fst =
      t.columns.filter (fun c => c != DATAOBJECT) := by
    rw [map_fst_filter_ne, hwf rl hrl]
  constructor
  · simp only [runSheet]
    rw [hrows, hrun]
    show Except.ok ((dropKey rl DATAOBJECT).map Prod.fst) =
      Except.ok (t.columns.filter (fun c => c != DATAOBJECT))
    rw [hkeys]
  · intro k
    constructor
    · intro hk
      refine ⟨rl, hrl, ?_⟩
      rw [hkeys]
      exact hk
    · rintro ⟨r, hr, hk⟩
      rw [map_fst_filter_ne, hwf r hr] at hk
      exact hk

/-- Witness for C9 at a concrete one-row sheet, in dry-run mode. -/
theorem c9_report_keys_concrete :
    (runSheet noFail true sess0 none "s" tW9).map (fun x => x.1.avuKeys) =
      .ok ["a", "b"] :=
  (c9_report_keys noFail true sess0 none "s" tW9 (by decide) (by decide) (by decide)).1

end MetadataFromTabular
